import Mathlib

/-!
Verification of the ChatBot conversation-session layer: the message ledger
append indexing, the sentinel metadata decoder of `POST /chat`
(src/server/routes/chat.js), the client-side `parseRAGResponse`
(src/client lib), the JWT token-resolution hook and the request handler's
error paths, shallowly embedded in Lean.
-/

namespace ChatBot

/-- JavaScript `String.prototype.indexOf` over a list of characters:
first position where `pat` occurs as a contiguous sublist, `none` when
absent (JS returns -1). -/
def idxOfAux (pat : List Char) : List Char → Nat → Option Nat
  | [], i => if pat = [] then some i else none
  | c :: t, i =>
    if pat.isPrefixOf (c :: t) then some i else idxOfAux pat t (i + 1)

/-- `s.indexOf(pat)` as on JS strings, returning `none` for -1. -/
def strIndexOf (s pat : String) : Option Nat :=
  idxOfAux pat.toList s.toList 0

/-- JS `s.slice(start, stop)` for non-negative arguments: empty when
`start ≥ stop`, clamped to the length. -/
def jsSlice (s : String) (start stop : Nat) : String :=
  ⟨(s.toList.drop start).take (stop - start)⟩

/-- JS `s.substring(0, n)`. -/
def strTake (s : String) (n : Nat) : String := ⟨s.toList.take n⟩

/-- JS `s.substring(n)`. -/
def strDrop (s : String) (n : Nat) : String := ⟨s.toList.drop n⟩

/-- A character the JS `trim` removes: ASCII whitespace. -/
def isJsWs (c : Char) : Bool :=
  c = ' ' || c = '\t' || c = '\n' || c = '\r' || c = '\x0b' || c = '\x0c'

/-- JS `s.trim()`: strip leading and trailing whitespace. -/
def jsTrim (s : String) : String :=
  ⟨((s.toList.dropWhile isJsWs).reverse.dropWhile isJsWs).reverse⟩

/-- JS `s.replace(/pat/g, repl)` for a non-empty literal pattern
`p0 :: prest`: leftmost non-overlapping occurrences replaced, scanning
resumes after the replacement.  The fuel argument (instantiated with the
input length, which the scan never exceeds since each step consumes at
least one character) keeps the recursion structural. -/
def replaceAllAux (p0 : Char) (prest repl : List Char) : Nat → List Char → List Char
  | _, [] => []
  | 0, l => l
  | fuel + 1, c :: t =>
    if (p0 :: prest).isPrefixOf (c :: t) then
      repl ++ replaceAllAux p0 prest repl fuel (t.drop prest.length)
    else
      c :: replaceAllAux p0 prest repl fuel t

/-- JS `s.replace(/pat/g, repl)` on strings (pattern assumed non-empty,
as every pattern in the source is). -/
def jsReplaceAll (s pat repl : String) : String :=
  match pat.toList with
  | [] => s
  | p0 :: prest => ⟨replaceAllAux p0 prest repl.toList s.length s.toList⟩

/-- JS `s.replace(pat, repl)` with a string pattern: only the first
occurrence is replaced. -/
def replaceFirstAux (pat repl : List Char) : List Char → List Char
  | [] => []
  | c :: t =>
    if pat.isPrefixOf (c :: t) then repl ++ (c :: t).drop pat.length
    else c :: replaceFirstAux pat repl t

/-- JS `s.replace(pat, repl)` on strings, first occurrence only. -/
def jsReplaceFirst (s pat repl : String) : String :=
  ⟨replaceFirstAux pat.toList repl.toList s.toList⟩

/-- JS `s.startsWith(pre)`. -/
def jsStartsWith (s pre : String) : Bool :=
  pre.toList.isPrefixOf s.toList

/-- The JSON value produced by `JSON.parse`.  Numbers keep their raw
textual form (the handler never does arithmetic on them). -/
inductive Json where
  | null : Json
  | bool (b : Bool) : Json
  | num (raw : String) : Json
  | str (s : String) : Json
  | arr (elems : List Json) : Json
  | obj (members : List (String × Json)) : Json

/-- JSON whitespace between tokens: space, tab, line feed, carriage
return. -/
def skipWs : List Char → List Char
  | c :: t => if c = ' ' || c = '\t' || c = '\n' || c = '\r' then skipWs t else c :: t
  | [] => []

/-- Value of a hexadecimal digit, by code point: 0-9, a-f, A-F. -/
def hexVal (c : Char) : Option Nat :=
  let n := c.toNat
  if 48 ≤ n && n ≤ 57 then some (n - 48)
  else if 97 ≤ n && n ≤ 102 then some (n - 87)
  else if 65 ≤ n && n ≤ 70 then some (n - 55)
  else none

/-- Parse the body of a JSON string literal (the opening quote already
consumed): returns the decoded characters and the rest after the closing
quote.  Raw control characters below U+0020 are rejected, escape
sequences are decoded, as in `JSON.parse`. -/
def parseStrAux : List Char → Option (List Char × List Char)
  | [] => none
  | '"' :: t => some ([], t)
  | '\\' :: e :: t =>
    match e with
    | '"' => (parseStrAux t).map (fun r => ('"' :: r.1, r.2))
    | '\\' => (parseStrAux t).map (fun r => ('\\' :: r.1, r.2))
    | '/' => (parseStrAux t).map (fun r => ('/' :: r.1, r.2))
    | 'b' => (parseStrAux t).map (fun r => ('\x08' :: r.1, r.2))
    | 'f' => (parseStrAux t).map (fun r => ('\x0c' :: r.1, r.2))
    | 'n' => (parseStrAux t).map (fun r => ('\n' :: r.1, r.2))
    | 'r' => (parseStrAux t).map (fun r => ('\r' :: r.1, r.2))
    | 't' => (parseStrAux t).map (fun r => ('\t' :: r.1, r.2))
    | 'u' =>
      match t with
      | h1 :: h2 :: h3 :: h4 :: t4 =>
        match hexVal h1, hexVal h2, hexVal h3, hexVal h4 with
        | some v1, some v2, some v3, some v4 =>
          let code := ((v1 * 16 + v2) * 16 + v3) * 16 + v4
          let ch := if h : code < 0xd800 ∨ (0xe000 ≤ code ∧ code < 0x110000)
            then Char.ofNatAux code (by omega)
            else '�'
          (parseStrAux t4).map (fun r => (ch :: r.1, r.2))
        | _, _, _, _ => none
      | _ => none
    | _ => none
  | c :: t =>
    if c.toNat < 0x20 then none
    else (parseStrAux t).map (fun r => (c :: r.1, r.2))

/-- Is `c` a decimal digit? -/
def isDigitCh (c : Char) : Bool := '0' ≤ c && c ≤ '9'

/-- The fraction part of a JSON number: `.` must be followed by at least
one digit, absence is fine. -/
def parseFrac : List Char → Option (List Char × List Char)
  | '.' :: t =>
    let ds := t.takeWhile isDigitCh
    if ds = [] then none else some ('.' :: ds, t.dropWhile isDigitCh)
  | s => some ([], s)

/-- The exponent part of a JSON number: `e`/`E`, optional sign, at least
one digit; absence is fine. -/
def parseExp : List Char → Option (List Char × List Char)
  | e :: t =>
    if e = 'e' || e = 'E' then
      let (pre, t1) := match t with
        | p :: t2 => if p = '+' || p = '-' then ([e, p], t2) else ([e], t)
        | [] => ([e], t)
      let ds := t1.takeWhile isDigitCh
      if ds = [] then none else some (pre ++ ds, t1.dropWhile isDigitCh)
    else some ([], e :: t)
  | [] => some ([], [])

/-- Parse a JSON number token per the JSON grammar
`-? (0 | [1-9][0-9]*) frac? exp?`; returns the raw token and the rest. -/
def parseNum (s : List Char) : Option (List Char × List Char) :=
  let (sign, s1) := match s with
    | '-' :: t => (['-'], t)
    | _ => (([] : List Char), s)
  let intPart := s1.takeWhile isDigitCh
  let s2 := s1.dropWhile isDigitCh
  if intPart = [] then none
  else if intPart.length > 1 && intPart.headI = '0' then none
  else
    match parseFrac s2 with
    | none => none
    | some (fracPart, s3) =>
      match parseExp s3 with
      | none => none
      | some (expPart, s4) => some (sign ++ intPart ++ fracPart ++ expPart, s4)

mutual

/-- Recursive-descent parser for one JSON value (fuel-bounded); returns
the value and the unconsumed rest.  Leading whitespace is skipped. -/
def parseVal : Nat → List Char → Option (Json × List Char)
  | 0, _ => none
  | fuel + 1, s =>
    match skipWs s with
    | '{' :: t =>
      (match skipWs t with
      | '}' :: t1 => some (Json.obj [], t1)
      | t1 => parseObjItems fuel [] t1)
    | '[' :: t =>
      (match skipWs t with
      | ']' :: t1 => some (Json.arr [], t1)
      | t1 => parseArrItems fuel [] t1)
    | '"' :: t => (parseStrAux t).map (fun r => (Json.str ⟨r.1⟩, r.2))
    | 't' :: 'r' :: 'u' :: 'e' :: t => some (Json.bool true, t)
    | 'f' :: 'a' :: 'l' :: 's' :: 'e' :: t => some (Json.bool false, t)
    | 'n' :: 'u' :: 'l' :: 'l' :: t => some (Json.null, t)
    | s1 => (parseNum s1).map (fun r => (Json.num ⟨r.1⟩, r.2))

/-- Array elements after `[`, at least one element expected at entry. -/
def parseArrItems : Nat → List Json → List Char → Option (Json × List Char)
  | 0, _, _ => none
  | fuel + 1, acc, s =>
    match parseVal fuel s with
    | none => none
    | some (v, rest) =>
      match skipWs rest with
      | ']' :: t => some (Json.arr (acc ++ [v]), t)
      | ',' :: t => parseArrItems fuel (acc ++ [v]) t
      | _ => none

/-- Object members after `{`, at least one member expected at entry. -/
def parseObjItems : Nat → List (String × Json) → List Char →
    Option (Json × List Char)
  | 0, _, _ => none
  | fuel + 1, acc, s =>
    match skipWs s with
    | '"' :: t =>
      match parseStrAux t with
      | none => none
      | some (key, rest) =>
        match skipWs rest with
        | ':' :: t1 =>
          (match parseVal fuel t1 with
          | none => none
          | some (v, rest1) =>
            match skipWs rest1 with
            | '}' :: t2 => some (Json.obj (acc ++ [(⟨key⟩, v)]), t2)
            | ',' :: t2 => parseObjItems fuel (acc ++ [(⟨key⟩, v)]) t2
            | _ => none)
        | _ => none
    | _ => none

end

/-- `JSON.parse`: one value, only whitespace may remain. -/
def jsonParse (s : String) : Option Json :=
  match parseVal (4 * s.length + 16) s.toList with
  | some (v, rest) => if skipWs rest = [] then some v else none
  | none => none

/-- Last binding of key `k` in a parsed object's member list
(`JSON.parse` keeps the last duplicate, property access reads it). -/
def jsGetField (j : Json) (k : String) : Option Json :=
  match j with
  | Json.obj kvs => ((kvs.filter (fun kv => kv.1 = k)).getLast?).map (fun kv => kv.2)
  | _ => none

/-- Is every mantissa digit of a JSON number token zero?  (Then its
numeric value is 0, which is falsy in JS.) -/
def numIsZero (raw : String) : Bool :=
  (raw.toList.takeWhile (fun c => c ≠ 'e' && c ≠ 'E')).all
    (fun c => !(isDigitCh c) || c = '0')

/-- JS falsiness of a JSON value (`undefined` is handled as
`Option.none` at use sites). -/
def jsFalsy : Json → Bool
  | Json.null => true
  | Json.bool b => !b
  | Json.num raw => numIsZero raw
  | Json.str s => s = ""
  | _ => false

/-- `metadata.sources || []` of the decoder. -/
def sourcesOf (metadata : Json) : Json :=
  match jsGetField metadata "sources" with
  | some v => if jsFalsy v then Json.arr [] else v
  | none => Json.arr []

/-- `metadata.context || ""` of the client parser. -/
def contextOf (metadata : Json) : Json :=
  match jsGetField metadata "context" with
  | some v => if jsFalsy v then Json.str "" else v
  | none => Json.str ""

/-- The quote and Python-literal normalization applied to the candidate
payload before `JSON.parse`, in source order: `'`→`"`, `True`→`true`,
`False`→`false`, `None`→`null`, each as a global replacement. -/
def normalizePayload (s : String) : String :=
  jsReplaceAll (jsReplaceAll (jsReplaceAll (jsReplaceAll s "\x27" "\"")
    "True" "true") "False" "false") "None" "null"

/-- The metadata decode of `POST /chat` (src/server/routes/chat.js,
lines 71-94): locate the sentinels with `indexOf`, slice the candidate
payload, normalize and parse it for `sources`, and rebuild the visible
answer as prefix-before-start ++ suffix-after-end, trimmed.  Without
both sentinels the input is returned unchanged with no sources. -/
def decodeMeta (aiResText : String) : String × Json :=
  match strIndexOf aiResText "METADATA_START:", strIndexOf aiResText ":METADATA_END" with
  | some metaStart, some metaEnd =>
    let jsonStr := jsSlice aiResText (metaStart + 15) metaEnd
    let sources :=
      match jsonParse (normalizePayload jsonStr) with
      | some metadata => sourcesOf metadata
      | none => Json.arr []
    (jsTrim (strTake aiResText metaStart ++ strDrop aiResText (metaEnd + 13)), sources)
  | _, _ => (aiResText, Json.arr [])

/-- The answer clean-up of the client-side `parseRAGResponse`:
`trim()` then strip leading and trailing `[\n\r]+`. -/
def ragCleanup (s : String) : String :=
  let t := (jsTrim s).toList
  ⟨((t.dropWhile (fun c => c = '\n' || c = '\r')).reverse.dropWhile
      (fun c => c = '\n' || c = '\r')).reverse⟩

/-- The client-side `parseRAGResponse` (answer, sources, context): same
sentinel location and payload normalization as the server decode, but on
parse failure the answer keeps the whole raw response (the sentinel
block is not stripped), and the answer is cleaned up in every case. -/
def parseRAGResponse (rawResponse : String) : String × Json × Json :=
  match strIndexOf rawResponse "METADATA_START:", strIndexOf rawResponse ":METADATA_END" with
  | some metadataStart, some metadataEnd =>
    let metadataContent := jsSlice rawResponse (metadataStart + 15) metadataEnd
    (match jsonParse (normalizePayload metadataContent) with
    | some metadata =>
      (ragCleanup (strTake rawResponse metadataStart ++ strDrop rawResponse (metadataEnd + 13)),
        sourcesOf metadata, contextOf metadata)
    | none => (ragCleanup rawResponse, Json.arr [], Json.str ""))
  | _, _ => (ragCleanup rawResponse, Json.arr [], Json.str "")

/-- One row of the `messages` table (the auto row id and timestamp are
storage-assigned and play no role in the verified claims). -/
structure Row where
  conversation_id : String
  user_id : Nat
  content : String
  speaker : String
  message_index : Nat
deriving DecidableEq

/-- The `messages` table, in insertion order. -/
abbrev Db := List Row

/-- `SELECT COUNT(*) FROM messages WHERE user_id = ?`: the count the
handler uses for index assignment — per user, over all conversations. -/
def countUser (db : Db) (uid : Nat) : Nat :=
  (db.filter (fun r => r.user_id = uid)).length

/-- Count of rows of one (user, conversation) scope, the quantity §3 of
the spec says the next index is derived from. -/
def countScope (db : Db) (uid : Nat) (conv : String) : Nat :=
  (db.filter (fun r => r.user_id = uid && r.conversation_id = conv)).length

/-- The message-append step of `POST /chat`: `COUNT(*) WHERE user_id = ?`
plus one becomes the new row's `message_index`; returns the assigned
index and the grown table. -/
def appendMsg (db : Db) (uid : Nat) (conv speaker content : String) : Nat × Db :=
  let idx := countUser db uid + 1
  (idx, db ++ [⟨conv, uid, content, speaker, idx⟩])

/-- One append request: who appends, under which conversation id, what. -/
structure Op where
  uid : Nat
  conv : String
  speaker : String
  content : String

/-- Run a sequence of appends one at a time; collect each op with the
index the ledger assigned to it, plus the final table. -/
def runAppends : Db → List Op → List (Op × Nat) × Db
  | db, [] => ([], db)
  | db, op :: rest =>
    let r := appendMsg db op.uid op.conv op.speaker op.content
    let rec' := runAppends r.2 rest
    ((op, r.1) :: rec'.1, rec'.2)

/-- The indices assigned to user `u`'s appends, in execution order. -/
def userIndices (u : Nat) (results : List (Op × Nat)) : List Nat :=
  (results.filter (fun r => r.1.uid = u)).map (fun r => r.2)

/-- The indices assigned to scope `(u, c)`'s appends, in execution
order. -/
def scopeIndices (u : Nat) (c : String) (results : List (Op × Nat)) : List Nat :=
  (results.filter (fun r => r.1.uid = u && r.1.conv = c)).map (fun r => r.2)

/-- `conversationId || "default-session"`: JS `||` takes the default for
a missing and for an empty-string conversation id. -/
def resolveConv (conversationId : Option String) : String :=
  match conversationId with
  | some c => if c = "" then "default-session" else c
  | none => "default-session"

/-- The `POST /chat` handler of src/server/routes/chat.js as a state
transformer on the messages table: HTTP status and final table.
`user` is the resolved `req.user.user_id` (0 models a falsy id),
`aiResult` is the inference collaborator's reply text, `none` when the
call fails (network error, timeout, non-2xx). -/
def postChat (db : Db) (user : Option Nat) (question : Option String)
    (conversationId : Option String) (aiUrl : Option String)
    (aiResult : Option String) : Nat × Db :=
  match user with
  | none => (401, db)
  | some uid =>
    if uid = 0 then (401, db)
    else
      match question with
      | none => (400, db)
      | some q =>
        if jsTrim q = "" then (400, db)
        else
          let convId := resolveConv conversationId
          let afterUser := (appendMsg db uid convId "User" q).2
          match aiUrl with
          | none => (500, afterUser)
          | some _ =>
            match aiResult with
            | none => (502, afterUser)
            | some aiResText =>
              let parsedAnswer := (decodeMeta aiResText).1
              let afterAi := (appendMsg afterUser uid convId "AI" parsedAnswer).2
              (200, afterAi)

/-- Insert into a list sorted by `message_index` (ascending). -/
def insertByIndex (r : Row) : List Row → List Row
  | [] => [r]
  | x :: t =>
    if r.message_index ≤ x.message_index then r :: x :: t
    else x :: insertByIndex r t

/-- Sort rows by `message_index` ascending (`ORDER BY message_index ASC`). -/
def sortByIndex : List Row → List Row
  | [] => []
  | x :: t => insertByIndex x (sortByIndex t)

/-- The row set served by `GET /chat` for a user: rows of the fixed
`"default-session"` conversation, ordered by `message_index`. -/
def getChatRows (db : Db) (uid : Nat) : List Row :=
  sortByIndex (db.filter
    (fun r => r.user_id = uid && r.conversation_id = "default-session"))

/-- The token picked by the `onRequest` hook: a header starting with
`Bearer ` wins (first occurrence of the prefix text removed), otherwise
the cookie value. -/
def resolveToken (authHeader cookieToken : Option String) : Option String :=
  match authHeader with
  | some h =>
    if jsStartsWith h "Bearer " then some (jsReplaceFirst h "Bearer " "") else cookieToken
  | none => cookieToken

/-- The `req.user.user_id` the endpoint sees: `jwt.verify` is abstracted
as `verify`, returning the token's user id or `none` when verification
throws (bad signature, expired, malformed); a falsy (empty) token is
never verified and leaves the request unauthenticated. -/
def resolveUser (verify : String → Option Nat)
    (authHeader cookieToken : Option String) : Option Nat :=
  match resolveToken authHeader cookieToken with
  | some t => if t = "" then none else verify t
  | none => none

/-! ## Ledger indexing lemmas -/

theorem countUser_append_one (db : Db) (r : Row) (u : Nat) :
    countUser (db ++ [r]) u = countUser db u + if r.user_id = u then 1 else 0 := by
  simp only [countUser, List.filter_append, List.length_append, List.filter_cons,
    List.filter_nil]
  split <;> simp_all

theorem userIndices_cons (u : Nat) (op : Op) (i : Nat) (rest : List (Op × Nat)) :
    userIndices u ((op, i) :: rest) =
      if op.uid = u then i :: userIndices u rest else userIndices u rest := by
  simp only [userIndices, List.filter_cons]
  split <;> simp_all

theorem userIndices_runAppends (u : Nat) (ops : List Op) :
    ∀ db : Db,
      userIndices u (runAppends db ops).1 =
        List.range' (countUser db u + 1) (ops.countP (fun op => op.uid == u)) := by
  induction ops with
  | nil => intro db; simp [runAppends, userIndices]
  | cons op rest ih =>
    intro db
    simp only [runAppends, appendMsg]
    rw [userIndices_cons, List.countP_cons]
    rcases Decidable.em (op.uid = u) with h | h
    · simp only [h, if_pos rfl, ih, countUser_append_one]
      simp [h, List.range'_succ]
    · simp only [if_neg h, ih, countUser_append_one]
      simp [h]

/-- C1 (amended): running any sequence of appends from an empty table,
the indices assigned to a fixed user's appends — across all of that
user's conversations — are exactly 1..N in execution order, each being
the count of the user's existing rows plus one. -/
theorem C1_user_scope_indices (ops : List Op) (u : Nat) :
    userIndices u (runAppends [] ops).1 =
      List.range' 1 (ops.countP (fun op => op.uid == u)) := by
  have h := userIndices_runAppends u ops []
  simpa [countUser] using h

/-- C1 (counterexample): a user's second append, made under a second
conversation id whose scope is empty, is assigned index 2, even though
the count of rows of that (user, conversation) scope plus one is 1 —
the per-scope 1..N property of the claim fails. -/
theorem C1_scope_counterexample :
    scopeIndices 1 "convB"
      (runAppends [] [⟨1, "convA", "User", "hi"⟩, ⟨1, "convB", "User", "yo"⟩]).1 = [2] ∧
    countScope (runAppends [] [⟨1, "convA", "User", "hi"⟩]).2 1 "convB" + 1 = 1 := by
  decide

/-! ## Decoder facts on concrete inputs -/

/-- C5: decoding the spec's example input yields the visible answer
`"hello  world"` (sentinel region removed, two spaces left) and the
single source `"a.pdf (p.1)"`, through quote normalization and strict
JSON parsing. -/
theorem C5_decode_example :
    decodeMeta "hello METADATA_START:\x7b\x27sources\x27: [\x27a.pdf (p.1)\x27], \x27context\x27: \x27x\x27\x7d:METADATA_END world" =
      ("hello  world", Json.arr [Json.str "a.pdf (p.1)"]) := by
  rfl

/-- C10: a well-formed sentinel block whose payload string value
contains an apostrophe is ruined by the global single-quote rewrite:
the normalized payload no longer parses, so the decoder returns no
sources, although the intended (properly quoted) metadata listed one;
the sentinel block is still stripped from the visible answer. -/
theorem C10_apostrophe_payload_loses_sources :
    decodeMeta "ok METADATA_START:\x7b\x27sources\x27: [\"John\x27s notes.pdf\"]\x7d:METADATA_END done" =
      ("ok  done", Json.arr []) ∧
    jsonParse (normalizePayload "\x7b\x27sources\x27: [\"John\x27s notes.pdf\"]\x7d") = none ∧
    jsonParse "\x7b\"sources\": [\"John\x27s notes.pdf\"]\x7d" =
      some (Json.obj [("sources", Json.arr [Json.str "John\x27s notes.pdf"])]) := by
  exact ⟨rfl, rfl, rfl⟩

/-! ## Decoder facts, general -/

/-- C3: when both sentinels are located but the normalized payload does
not parse as JSON, the decode still returns the answer with the
sentinel-delimited region (start sentinel through end sentinel
inclusive) removed and trimmed, together with an empty source list. -/
theorem C3_parse_failure_still_strips (s : String) (ms me : Nat)
    (h1 : strIndexOf s "METADATA_START:" = some ms)
    (h2 : strIndexOf s ":METADATA_END" = some me)
    (h3 : jsonParse (normalizePayload (jsSlice s (ms + 15) me)) = none) :
    decodeMeta s = (jsTrim (strTake s ms ++ strDrop s (me + 13)), Json.arr []) := by
  simp [decodeMeta, h1, h2, h3]

theorem C3_parse_failure_witness :
    jsonParse (normalizePayload (jsSlice "aMETADATA_START:nope:METADATA_ENDz" 16 20)) = none ∧
    decodeMeta "aMETADATA_START:nope:METADATA_ENDz" = ("az", Json.arr []) :=
  ⟨rfl, (C3_parse_failure_still_strips "aMETADATA_START:nope:METADATA_ENDz" 1 20
    rfl rfl rfl).trans rfl⟩

/-- C4 (counterexample): on an input whose only end sentinel occurs
before the start sentinel, the decode does not treat the input as
sentinel-free — the answer differs from the whole input, because the
code checks only that both `indexOf` results are non-negative, not that
the end follows the start. -/
theorem C4_end_before_start_counterexample :
    (decodeMeta "A:METADATA_ENDxMETADATA_START:B").1 =
      "A:METADATA_ENDxxMETADATA_START:B" ∧
    "A:METADATA_ENDxxMETADATA_START:B" ≠ "A:METADATA_ENDxMETADATA_START:B" := by
  exact ⟨rfl, by decide⟩

/-- C4 (amended): the decode locates the first occurrence of each
sentinel anywhere in the input; if either is absent the whole input is
the answer with an empty source list, and whenever both are present —
including with the end sentinel before the start — the sentinel branch
runs and the answer is prefix-before-start ++ suffix-after-end,
trimmed. -/
theorem C4_sentinel_location (s : String) :
    ((strIndexOf s "METADATA_START:" = none ∨ strIndexOf s ":METADATA_END" = none) →
      decodeMeta s = (s, Json.arr [])) ∧
    (∀ ms me, strIndexOf s "METADATA_START:" = some ms →
      strIndexOf s ":METADATA_END" = some me →
      (decodeMeta s).1 = jsTrim (strTake s ms ++ strDrop s (me + 13))) := by
  constructor
  · intro h
    rcases hA : strIndexOf s "METADATA_START:" with _ | a <;>
      rcases hB : strIndexOf s ":METADATA_END" with _ | b <;>
      simp [hA, hB] at h ⊢ <;> simp [decodeMeta, hA, hB]
  · intro ms me h1 h2
    simp [decodeMeta, h1, h2]

theorem C4_sentinel_location_witness :
    strIndexOf "plain" "METADATA_START:" = none ∧
    decodeMeta "plain" = ("plain", Json.arr []) ∧
    strIndexOf "A:METADATA_ENDxMETADATA_START:B" "METADATA_START:" = some 15 ∧
    strIndexOf "A:METADATA_ENDxMETADATA_START:B" ":METADATA_END" = some 1 ∧
    (decodeMeta "A:METADATA_ENDxMETADATA_START:B").1 =
      jsTrim (strTake "A:METADATA_ENDxMETADATA_START:B" 15 ++
        strDrop "A:METADATA_ENDxMETADATA_START:B" 14) :=
  ⟨rfl, (C4_sentinel_location "plain").1 (Or.inl rfl), rfl, rfl,
    (C4_sentinel_location "A:METADATA_ENDxMETADATA_START:B").2 15 1 rfl rfl⟩

/-! ## Trimming lemmas -/

theorem dropWhile_head_false {p : α → Bool} {l : List α} {c : α} {t : List α}
    (h : l.dropWhile p = c :: t) : p c = false := by
  induction l with
  | nil => simp [List.dropWhile] at h
  | cons a rest ih =>
    rw [List.dropWhile_cons] at h
    by_cases hp : p a = true
    · exact ih (by simpa [hp] using h)
    · simp [hp] at h
      rcases h with ⟨rfl, -⟩
      simpa using hp

theorem dropWhile_of_sub {p q : α → Bool} (hsub : ∀ c, q c = true → p c = true)
    (l : List α) : (l.dropWhile p).dropWhile q = l.dropWhile p := by
  rcases h : l.dropWhile p with _ | ⟨c, t⟩
  · simp
  · have hc : p c = false := dropWhile_head_false h
    have hq : q c = false := by
      rcases hqc : q c with _ | _
      · rfl
      · exact absurd (hsub c hqc) (by simp [hc])
    simp [List.dropWhile_cons, hq]

/-- Newline/carriage-return characters are JS whitespace. -/
theorem nl_sub_ws : ∀ c : Char, (c = '\n' || c = '\r') = true → isJsWs c = true := by
  intro c h
  rcases Bool.or_eq_true_iff.mp h with h | h
  · simp only [decide_eq_true_eq] at h; subst h; rfl
  · simp only [decide_eq_true_eq] at h; subst h; rfl

/-- The trimmed-text core fact behind the client clean-up: stripping
leading/trailing newlines after a two-sided whitespace trim changes
nothing. -/
theorem trim_nl_strip_noop (M : List Char) :
    (((((M.dropWhile isJsWs).reverse.dropWhile isJsWs).reverse.dropWhile
        (fun c => c = '\n' || c = '\r')).reverse.dropWhile
        (fun c => c = '\n' || c = '\r')).reverse) =
      ((M.dropWhile isJsWs).reverse.dropWhile isJsWs).reverse := by
  have step1 :
      ((M.dropWhile isJsWs).reverse.dropWhile isJsWs).reverse.dropWhile
          (fun c => c = '\n' || c = '\r') =
        ((M.dropWhile isJsWs).reverse.dropWhile isJsWs).reverse := by
    rcases hTc : ((M.dropWhile isJsWs).reverse.dropWhile isJsWs).reverse with _ | ⟨c, t⟩
    · simp
    · have h1 : (M.dropWhile isJsWs).reverse.dropWhile isJsWs <:+
          (M.dropWhile isJsWs).reverse := List.dropWhile_suffix _
      have h2 := List.reverse_prefix.mpr h1
      rw [List.reverse_reverse] at h2
      rw [hTc] at h2
      obtain ⟨r, hr⟩ := h2
      have hA : M.dropWhile isJsWs = c :: (t ++ r) := by rw [← hr]; simp
      have hws : isJsWs c = false := dropWhile_head_false hA
      have hnlc : (c = '\n' || c = '\r' : Bool) = false := by
        cases hq : (c = '\n' || c = '\r' : Bool)
        · rfl
        · exact absurd (nl_sub_ws c hq) (by simp [hws])
      simp [List.dropWhile_cons, hnlc]
  rw [step1, List.reverse_reverse,
    dropWhile_of_sub nl_sub_ws ((M.dropWhile isJsWs).reverse)]

/-- The answer clean-up of the client parser is exactly `trim`: the
extra leading/trailing newline strips are no-ops on trimmed text. -/
theorem ragCleanup_eq_jsTrim (s : String) : ragCleanup s = jsTrim s := by
  obtain ⟨L⟩ := s
  exact congrArg String.mk (trim_nl_strip_noop L)

/-- C6 (counterexample): on sentinel-free input the server decode
returns the text literally unchanged — it does not trim, contrary to
the claim that the no-sentinel answer is always trimmed. -/
theorem C6_untrimmed_counterexample :
    (decodeMeta "  hi  ").1 = "  hi  " ∧ (decodeMeta "  hi  ").1 ≠ jsTrim "  hi  " := by
  exact ⟨rfl, by decide⟩

/-- C6 (amended): on input containing neither sentinel, the server
decode returns the text unchanged (untrimmed) with an empty source
list, while the client-side `parseRAGResponse` returns it trimmed. -/
theorem C6_no_sentinel_paths (s : String)
    (h1 : strIndexOf s "METADATA_START:" = none)
    (h2 : strIndexOf s ":METADATA_END" = none) :
    decodeMeta s = (s, Json.arr []) ∧ (parseRAGResponse s).1 = jsTrim s := by
  constructor
  · simp [decodeMeta, h1, h2]
  · simp [parseRAGResponse, h1, h2, ragCleanup_eq_jsTrim]

theorem C6_no_sentinel_witness :
    strIndexOf " spaced " "METADATA_START:" = none ∧
    strIndexOf " spaced " ":METADATA_END" = none ∧
    decodeMeta " spaced " = (" spaced ", Json.arr []) ∧
    (parseRAGResponse " spaced ").1 = "spaced" :=
  ⟨rfl, rfl, (C6_no_sentinel_paths " spaced " rfl rfl).1,
    ((C6_no_sentinel_paths " spaced " rfl rfl).2).trans rfl⟩

/-! ## The POST /chat handler -/

/-- C2 (counterexample): the content persisted as the AI turn is the
stripped visible answer, not the original undecoded upstream text —
after a reply carrying a sentinel block, the stored AI row's content
differs from the raw reply. -/
theorem C2_persisted_content_counterexample :
    (((postChat [] (some 1) (some "q") none (some "u")
          (some "Hi METADATA_START:\x7b\x7d:METADATA_END there")).2.getLast?).map
        (fun r => r.content)) = some "Hi  there" ∧
    ("Hi  there" : String) ≠ "Hi METADATA_START:\x7b\x7d:METADATA_END there" := by
  exact ⟨rfl, by decide⟩

/-- C2 (amended): on the success path the row persisted as the AI turn
carries the decoded visible answer — the upstream text with the
sentinel block stripped — as its content, not the original text. -/
theorem C2_ai_turn_persists_stripped (db : Db) (uid : Nat) (q : String)
    (cid : Option String) (url t : String) (hu : uid ≠ 0) (hq : jsTrim q ≠ "") :
    (postChat db (some uid) (some q) cid (some url) (some t)).1 = 200 ∧
    (((postChat db (some uid) (some q) cid (some url) (some t)).2.getLast?).map
        (fun r => (r.speaker, r.content))) = some ("AI", (decodeMeta t).1) := by
  constructor
  · simp [postChat, hu, hq]
  · simp [postChat, hu, hq, appendMsg, List.getLast?_concat]

theorem C2_ai_turn_witness :
    (1 : Nat) ≠ 0 ∧ jsTrim "hi" ≠ "" ∧
    (postChat [] (some 1) (some "hi") none (some "u") (some "plain")).1 = 200 ∧
    (((postChat [] (some 1) (some "hi") none (some "u") (some "plain")).2.getLast?).map
        (fun r => (r.speaker, r.content))) = some ("AI", "plain") :=
  ⟨by decide, by decide,
    (C2_ai_turn_persists_stripped [] 1 "hi" none "u" "plain" (by decide) (by decide)).1,
    ((C2_ai_turn_persists_stripped [] 1 "hi" none "u" "plain" (by decide) (by decide)).2).trans rfl⟩

/-- C8: an authenticated `POST /chat` whose question is absent, empty or
whitespace-only ends as a 400 validation error with the messages table
unchanged — no row is written for any scope. -/
theorem C8_empty_question_no_write (db : Db) (uid : Nat) (q : Option String)
    (cid url ai : Option String) (hu : uid ≠ 0)
    (hq : q = none ∨ ∃ x, q = some x ∧ jsTrim x = "") :
    postChat db (some uid) q cid url ai = (400, db) := by
  rcases hq with h | ⟨x, rfl, hx⟩
  · subst h; simp [postChat, hu]
  · simp [postChat, hu, hx]

theorem C8_empty_question_witness :
    (1 : Nat) ≠ 0 ∧ jsTrim "  \t " = "" ∧
    postChat [⟨"default-session", 2, "old", "User", 1⟩] (some 1) (some "  \t ")
      none none none = (400, [⟨"default-session", 2, "old", "User", 1⟩]) :=
  ⟨by decide, rfl,
    C8_empty_question_no_write [⟨"default-session", 2, "old", "User", 1⟩] 1
      (some "  \t ") none none none (by decide) (Or.inr ⟨"  \t ", rfl, rfl⟩)⟩

/-! ## Token resolution -/

theorem jsStartsWith_append (pre t : String) : jsStartsWith (pre ++ t) pre = true := by
  unfold jsStartsWith
  rw [show (pre ++ t).toList = pre.toList ++ t.toList from rfl]
  exact List.isPrefixOf_iff_prefix.mpr (List.prefix_append _ _)

theorem replaceFirstAux_at_head (p0 : Char) (pr x : List Char) :
    replaceFirstAux (p0 :: pr) [] ((p0 :: pr) ++ x) = x := by
  have hpre : (p0 :: pr).isPrefixOf ((p0 :: pr) ++ x) = true :=
    List.isPrefixOf_iff_prefix.mpr (List.prefix_append _ _)
  rw [show (p0 :: pr) ++ x = p0 :: (pr ++ x) from rfl]
  simp only [replaceFirstAux]
  rw [if_pos (by exact hpre)]
  simp

theorem jsReplaceFirst_bearer (t : String) :
    jsReplaceFirst ("Bearer " ++ t) "Bearer " "" = t := by
  obtain ⟨l⟩ := t
  exact congrArg String.mk (replaceFirstAux_at_head 'B' "earer ".toList l)

theorem resolveToken_bearer_header (t : String) :
    resolveToken (some ("Bearer " ++ t)) none = some t := by
  show (if jsStartsWith ("Bearer " ++ t) "Bearer " = true
    then some (jsReplaceFirst ("Bearer " ++ t) "Bearer " "") else none) = some t
  rw [if_pos (jsStartsWith_append "Bearer " t), jsReplaceFirst_bearer]

theorem resolveUser_bearer_eq_cookie (verify : String → Option Nat) (t : String) :
    resolveUser verify (some ("Bearer " ++ t)) none = resolveUser verify none (some t) := by
  unfold resolveUser
  rw [resolveToken_bearer_header]
  rfl

/-- C7: token resolution degrades gracefully — whenever the resolved
token fails verification (tampered/expired, `verify` throws), the
endpoint outcome is the same 401 with the table untouched as for a
request with no token at all; and a valid token supplied only in the
cookie authenticates identically to the same token supplied only in a
`Bearer` authorization header. -/
theorem C7_auth_graceful_degradation (verify : String → Option Nat)
    (hdr ck : Option String) (t : String) (db : Db)
    (q cid url ai : Option String)
    (hfail : ∀ tok, resolveToken hdr ck = some tok → verify tok = none) :
    postChat db (resolveUser verify hdr ck) q cid url ai = (401, db) ∧
    postChat db (resolveUser verify none none) q cid url ai = (401, db) ∧
    resolveUser verify (some ("Bearer " ++ t)) none = resolveUser verify none (some t) := by
  have hres : resolveUser verify hdr ck = none := by
    unfold resolveUser
    rcases h : resolveToken hdr ck with _ | tok
    · rfl
    · by_cases ht : tok = ""
      · simp [ht]
      · simp [ht, hfail tok h]
  exact ⟨by rw [hres]; rfl, rfl, resolveUser_bearer_eq_cookie verify t⟩

theorem C7_auth_witness :
    postChat [] (resolveUser (fun _ => none) (some "Bearer tok") none)
      (some "q") none none none = (401, ([] : Db)) ∧
    postChat [] (resolveUser (fun _ => none) none none)
      (some "q") none none none = (401, ([] : Db)) ∧
    resolveUser (fun _ => none) (some ("Bearer " ++ "tok")) none =
      resolveUser (fun _ => none) none (some "tok") :=
  C7_auth_graceful_degradation (fun _ => none) (some "Bearer tok") none "tok" []
    (some "q") none none none (fun _ _ => rfl)

/-! ## GET /chat membership -/

theorem mem_insertByIndex (r x : Row) (l : List Row) :
    x ∈ insertByIndex r l ↔ x = r ∨ x ∈ l := by
  induction l with
  | nil => simp [insertByIndex]
  | cons a t ih =>
    simp only [insertByIndex]
    split
    · simp
    · simp only [List.mem_cons, ih]
      tauto

theorem mem_sortByIndex (x : Row) (l : List Row) :
    x ∈ sortByIndex l ↔ x ∈ l := by
  induction l with
  | nil => simp [sortByIndex]
  | cons a t ih => simp [sortByIndex, mem_insertByIndex, ih]

/-- C9: when the inference call fails after the user's turn was
appended, the request ends 502 and the final table is exactly the old
table plus the user's row — nothing is rolled back or deleted; the row
is present, and the `GET /chat` row set for that user (which serves the
fixed default conversation) includes it whenever the turn was appended
under that conversation. -/
theorem C9_upstream_failure_persists_user_turn (db : Db) (uid : Nat) (q : String)
    (cid : Option String) (url : String) (hu : uid ≠ 0) (hq : jsTrim q ≠ "") :
    postChat db (some uid) (some q) cid (some url) none =
      (502, db ++ [⟨resolveConv cid, uid, q, "User", countUser db uid + 1⟩]) ∧
    (⟨resolveConv cid, uid, q, "User", countUser db uid + 1⟩ : Row) ∈
      (postChat db (some uid) (some q) cid (some url) none).2 ∧
    (resolveConv cid = "default-session" →
      (⟨resolveConv cid, uid, q, "User", countUser db uid + 1⟩ : Row) ∈
        getChatRows (postChat db (some uid) (some q) cid (some url) none).2 uid) := by
  have hpost : postChat db (some uid) (some q) cid (some url) none =
      (502, db ++ [⟨resolveConv cid, uid, q, "User", countUser db uid + 1⟩]) := by
    simp [postChat, hu, hq, appendMsg]
  refine ⟨hpost, ?_, ?_⟩
  · rw [hpost]
    simp
  · intro hconv
    rw [hpost]
    simp only [getChatRows, mem_sortByIndex, List.mem_filter]
    refine ⟨by simp, ?_⟩
    simp [hconv]

theorem C9_upstream_failure_witness :
    postChat [] (some 1) (some "hi") none (some "u") none =
      (502, [⟨"default-session", 1, "hi", "User", 1⟩]) ∧
    (⟨"default-session", 1, "hi", "User", 1⟩ : Row) ∈
      (postChat [] (some 1) (some "hi") none (some "u") none).2 ∧
    (⟨"default-session", 1, "hi", "User", 1⟩ : Row) ∈
      getChatRows (postChat [] (some 1) (some "hi") none (some "u") none).2 1 := by
  have h := C9_upstream_failure_persists_user_turn [] 1 "hi" none "u"
    (by decide) (by decide)
  exact ⟨h.1, h.2.1, h.2.2 rfl⟩

end ChatBot
